import Mathlib

/-!
Verification of the unity-http-server repository: a shallow embedding of the
GCS proxy handler (`src/gcs-handler.ts`) and the local-mode header middleware
(`src/server.ts`), with theorems checking the specification's claims.

Conventions of the embedding:
* JavaScript `string | undefined` values are `Option String`; JS truthiness of
  such a value (`if (x)`) is `optTruthy` (present and non-empty).
* A thrown exception from a backend call is `Except.error`; the message is kept
  but never inspected, mirroring the single `catch` block in `handleRequest`.
* The Express response object is modelled by the final `HttpResponse` the
  handler produces, plus a trace of the backend operations it performed.
-/

namespace UnityHttpServer

/-- Object metadata as the GCS client returns it: each field is `none` for a
JS `undefined`. -/
structure ObjectMetadata where
  etag : Option String
  contentType : Option String
  contentEncoding : Option String
deriving DecidableEq

/-- `GcsConfig` from `gcs-handler.ts`. The source field `prefix` is renamed
`pfx` because `prefix` is a reserved word in Lean. -/
structure GcsConfig where
  bucketName : String
  pfx : String
deriving DecidableEq

/-- JS truthiness of a `string | undefined` value: defined and non-empty. -/
def optTruthy : Option String → Bool
  | some s => s != ""
  | none => false

/-- JS `s.endsWith('/')`: the last character is a slash. -/
def endsWithSlash (s : String) : Bool :=
  match s.data.getLast? with
  | some '/' => true
  | _ => false

/-- The five characters of the anchored regex head `^gs:\/\/`. -/
def schemeChars : List Char := ['g', 's', ':', '/', '/']

/-- JS regex test `^gs:\/\/` on a string: its first five characters are
`g`, `s`, `:`, `/`, `/`. -/
def hasGsScheme (s : String) : Bool :=
  schemeChars.isPrefixOf s.data

/-- `GcsHandler.parseGcsPath`: applies `^gs:\/\/([^\/]+)\/?(.*)` and returns
`{bucketName: group1, prefix: group2 || ''}`, or `null` on no match.
Group 1 is the maximal non-empty run of non-slash characters after the scheme
(`[^ \tslash]+` matches newlines, so only `/` stops it); the optional `\/?`
consumes one following slash; group 2 is `(.*)`, which stops at a newline. -/
def parseGcsPath (gcsPath : String) : Option GcsConfig :=
  if hasGsScheme gcsPath then
    let rest := gcsPath.data.drop 5
    let bucket := rest.takeWhile (fun c => c != '/')
    if bucket.isEmpty then
      none
    else
      let after := rest.drop bucket.length
      let afterSep := if after.head? = some '/' then after.drop 1 else after
      some ⟨⟨bucket⟩, ⟨afterSep.takeWhile (fun c => c != '\n')⟩⟩
  else
    none

/-- Lines 39-42 of `handleRequest`: resolve the request URL to an object key.
`req.url === '/'` substitutes `index.html`, otherwise `substring(1)` drops the
leading character; a non-empty configured prefix is prepended, adding a `/`
separator unless the prefix already ends with one. -/
def resolveFilePath (pfx url : String) : String :=
  let filePath := if url = "/" then "index.html" else url.drop 1
  if pfx ≠ "" then
    pfx ++ (if endsWithSlash pfx then "" else "/") ++ filePath
  else
    filePath

/-- The 404 body template literal of lines 48-51, with the file path
interpolated. -/
def notFoundBody (filePath : String) : String :=
  "\n          <h1>File Not Found</h1>\n          <p>File not found in GCS: "
    ++ filePath ++ "</p>\n        "

/-- Line 60: `clientETag && metadata.etag && clientETag === metadata.etag`. -/
def condMatch (clientETag etag : Option String) : Bool :=
  optTruthy clientETag && optTruthy etag && clientETag == etag

/-- One conditional `res.set(name, value)` guarded by JS truthiness of the
metadata field (lines 66-76): contributes the header when the field is present
and non-empty. -/
def setIfTruthy (name : String) (v : Option String) : List (String × String) :=
  match v with
  | some s => if s != "" then [(name, s)] else []
  | none => []

/-- The backend surface `handleRequest` consumes from the GCS client, per
object key. `Except.error` models a thrown exception. The `Bool` argument of
`createReadStream` is the `decompress` option. -/
structure Backend where
  fileExists : String → Except String Bool
  getMetadata : String → Except String ObjectMetadata
  createReadStream : String → Bool → Except String Unit

/-- An incoming request as `handleRequest` sees it: `req.method`, `req.url`,
and `req.headers['if-none-match']`. -/
structure HttpRequest where
  method : String
  url : String
  ifNoneMatch : Option String
deriving DecidableEq

/-- What the handler sends as a body: nothing (`res.end()`), a text payload
(`res.send(...)`), or a piped object stream with its `decompress` option. -/
inductive ResponseBody where
  | empty
  | text (s : String)
  | objectStream (key : String) (decompress : Bool)
deriving DecidableEq

/-- The response the handler produces: status code, headers set via
`res.set`, and the body. -/
structure HttpResponse where
  status : Nat
  headers : List (String × String)
  body : ResponseBody
deriving DecidableEq

/-- A backend round-trip performed by the handler, in order. -/
inductive BackendOp where
  | checkExists (key : String)
  | fetchMetadata (key : String)
  | openReadStream (key : String) (decompress : Bool)
deriving DecidableEq

/-- `GcsHandler.handleRequest` (lines 37-86): resolve the key, check
existence (404 when absent), fetch metadata, short-circuit with a bare 304
when the If-None-Match check of line 60 fires, otherwise set the metadata
headers plus `Cache-Control: no-cache` and pipe the undecompressed object
stream; any thrown backend error lands in the catch block, which sends 500.
Returns the response together with the trace of backend operations. -/
def handleRequest (cfg : GcsConfig) (backend : Backend) (req : HttpRequest) :
    HttpResponse × List BackendOp :=
  let filePath := resolveFilePath cfg.pfx req.url
  match backend.fileExists filePath with
  | .error _ =>
      (⟨500, [], .text "Internal Server Error"⟩, [.checkExists filePath])
  | .ok false =>
      (⟨404, [], .text (notFoundBody filePath)⟩, [.checkExists filePath])
  | .ok true =>
      match backend.getMetadata filePath with
      | .error _ =>
          (⟨500, [], .text "Internal Server Error"⟩,
           [.checkExists filePath, .fetchMetadata filePath])
      | .ok metadata =>
          if condMatch req.ifNoneMatch metadata.etag then
            (⟨304, [], .empty⟩,
             [.checkExists filePath, .fetchMetadata filePath])
          else
            let headers :=
              setIfTruthy "ETag" metadata.etag ++
              setIfTruthy "Content-Type" metadata.contentType ++
              setIfTruthy "Content-Encoding" metadata.contentEncoding ++
              [("Cache-Control", "no-cache")]
            match backend.createReadStream filePath false with
            | .error _ =>
                (⟨500, headers, .text "Internal Server Error"⟩,
                 [.checkExists filePath, .fetchMetadata filePath,
                  .openReadStream filePath false])
            | .ok _ =>
                (⟨200, headers, .objectStream filePath false⟩,
                 [.checkExists filePath, .fetchMetadata filePath,
                  .openReadStream filePath false])

/-- JS `url.includes(pat)`: some suffix of `url` starts with `pat`. -/
def strContains (url pat : String) : Bool :=
  (List.range (url.data.length + 1)).any
    (fun i => pat.data.isPrefixOf (url.data.drop i))

/-- `getContentTypeForCompressedFile` (server.ts lines 99-108). -/
def getContentTypeForCompressedFile (url : String) : String :=
  if strContains url ".wasm." then "application/wasm"
  else if strContains url ".js." then "application/javascript"
  else if strContains url ".data." then "application/octet-stream"
  else "application/octet-stream"

/-- Trailing slashes, which Node's `path.extname` ignores. -/
def dropTrailingSlashes (s : String) : String :=
  ⟨(s.data.reverse.dropWhile (fun c => c = '/')).reverse⟩

/-- The part of `s` after its last slash. -/
def afterLastSlash (s : String) : String :=
  ⟨(s.data.reverse.takeWhile (fun c => c != '/')).reverse⟩

/-- ASCII lowercasing of one character, as `toLowerCase` acts on the ASCII
extensions this middleware compares against. -/
def charLower (c : Char) : Char :=
  if 'A' ≤ c && c ≤ 'Z' then Char.ofNat (c.toNat + 32) else c

/-- JS `s.toLowerCase()` on ASCII strings. -/
def strLower (s : String) : String :=
  ⟨s.data.map charLower⟩

/-- Node `path.extname` on a basename `b`: the suffix from the last dot,
except that a sole leading dot (hidden file) and the special name `..` give
the empty string. -/
def extnameOfBase (b : String) : String :=
  if b = ".." then ""
  else
    match b.data.reverse.findIdx? (fun c => c = '.') with
    | none => ""
    | some j =>
        let i := b.length - 1 - j
        if i = 0 then "" else ⟨b.data.drop i⟩

/-- Node `path.extname(url)`: extension of the last path segment, ignoring
trailing slashes. -/
def extname (s : String) : String :=
  extnameOfBase (afterLastSlash (dropTrailingSlashes s))

/-- The local-mode header middleware (server.ts lines 113-147): switch on
`path.extname(req.url).toLowerCase()` and set Content-Type / Content-Encoding
accordingly; unmatched extensions set nothing. -/
def localHeaders (url : String) : List (String × String) :=
  let ext := strLower (extname url)
  if ext = ".wasm" then [("Content-Type", "application/wasm")]
  else if ext = ".js" then [("Content-Type", "application/javascript")]
  else if ext = ".gz" then
    [("Content-Encoding", "gzip"),
     ("Content-Type", getContentTypeForCompressedFile url)]
  else if ext = ".br" then
    [("Content-Encoding", "br"),
     ("Content-Type", getContentTypeForCompressedFile url)]
  else if ext = ".data" then [("Content-Type", "application/octet-stream")]
  else if ext = ".unityweb" then [("Content-Type", "application/octet-stream")]
  else []

/-- Claim-side description of one metadata-driven header: set exactly when the
field is present. Compared against the code-side `setIfTruthy`, which also
skips an empty present value (JS truthiness). -/
def optHeader (name : String) : Option String → List (String × String)
  | some s => [(name, s)]
  | none => []

/-- Fixture: a backend whose every key exists with ETag `"abc"`,
content type `text/html` and content encoding `gzip`. -/
def demoBackendFull : Backend :=
  ⟨fun _ => .ok true,
   fun _ => .ok ⟨some "abc", some "text/html", some "gzip"⟩,
   fun _ _ => .ok ()⟩

/-- Fixture: a backend on which no key exists. -/
def demoBackendMissing : Backend :=
  ⟨fun _ => .ok false, fun _ => .error "not reached", fun _ _ => .error "not reached"⟩

/-- Fixture: a backend whose existence check throws. -/
def demoBackendDown : Backend :=
  ⟨fun _ => .error "network unreachable", fun _ => .error "network unreachable",
   fun _ _ => .error "network unreachable"⟩

/-- Fixture: a backend whose metadata fetch throws after a successful
existence check. -/
def demoBackendMetaDown : Backend :=
  ⟨fun _ => .ok true, fun _ => .error "network unreachable",
   fun _ _ => .error "network unreachable"⟩

/-- Fixture: a backend whose read-stream setup throws after existence and
metadata succeed. -/
def demoBackendStreamDown : Backend :=
  ⟨fun _ => .ok true, fun _ => .ok ⟨some "abc", none, none⟩,
   fun _ _ => .error "network unreachable"⟩

/-! ### Helper lemmas -/

theorem takeWhile_bne_append (c : Char) (l r : List Char) (hl : c ∉ l) :
    (l ++ c :: r).takeWhile (fun x => x != c) = l := by
  induction l with
  | nil => simp
  | cons a t ih =>
      simp only [List.mem_cons, not_or] at hl
      have ha : (a != c) = true := by
        simp only [bne_iff_ne]
        exact fun h => hl.1 h.symm
      simp [List.takeWhile_cons, ha, ih hl.2]

theorem takeWhile_bne_self (c : Char) (l : List Char) (hl : c ∉ l) :
    l.takeWhile (fun x => x != c) = l := by
  induction l with
  | nil => rfl
  | cons a t ih =>
      simp only [List.mem_cons, not_or] at hl
      have ha : (a != c) = true := by
        simp only [bne_iff_ne]
        exact fun h => hl.1 h.symm
      simp [List.takeWhile_cons, ha, ih hl.2]

theorem isPrefixOf_append (l r : List Char) : l.isPrefixOf (l ++ r) = true := by
  induction l with
  | nil => cases r <;> rfl
  | cons a t ih => simp [List.isPrefixOf, ih]

theorem condMatch_iff (c t : Option String) :
    condMatch c t = true ↔ ∃ v, c = some v ∧ v ≠ "" ∧ t = some v := by
  cases c with
  | none => simp [condMatch, optTruthy]
  | some cv =>
      cases t with
      | none => simp [condMatch, optTruthy]
      | some tv =>
          simp only [condMatch, optTruthy, Bool.and_eq_true, bne_iff_ne,
            beq_iff_eq, Option.some.injEq]
          aesop

/-! ### Claim theorems -/

/-- Claim C5: for every locator of the form `gs://b/p` (with a non-empty,
slash-free bucket `b` and a newline-free remainder `p`, matching the character
classes of the regex), `parseGcsPath` returns bucket `b` and key prefix `p`;
and for every string lacking the `gs://` scheme, it returns `null`. -/
theorem parseGcsPath_spec (b p s : String)
    (hb : b ≠ "") (hbs : '/' ∉ b.data) (hp : '\n' ∉ p.data)
    (hs : hasGsScheme s = false) :
    parseGcsPath ("gs://" ++ b ++ "/" ++ p) = some ⟨b, p⟩ ∧
    parseGcsPath s = none := by
  constructor
  · have hbnil : b.data ≠ [] := fun h => hb (String.ext h)
    have hdata : ("gs://" ++ b ++ "/" ++ p).data
        = schemeChars ++ (b.data ++ '/' :: p.data) := by
      simp [String.data_append, schemeChars, List.append_assoc]
    have hscheme : hasGsScheme ("gs://" ++ b ++ "/" ++ p) = true := by
      rw [hasGsScheme, hdata]
      exact isPrefixOf_append schemeChars _
    have hdrop5 : (schemeChars ++ (b.data ++ '/' :: p.data)).drop 5
        = b.data ++ '/' :: p.data := List.drop_left' rfl
    have hbucket : (b.data ++ '/' :: p.data).takeWhile (fun x => x != '/')
        = b.data := takeWhile_bne_append '/' b.data p.data hbs
    have hempty : b.data.isEmpty = false := by
      cases hd : b.data with
      | nil => exact absurd hd hbnil
      | cons a t => rfl
    have hdropb : (b.data ++ '/' :: p.data).drop b.data.length
        = '/' :: p.data := List.drop_left b.data _
    have htp : p.data.takeWhile (fun x => x != '\n') = p.data :=
      takeWhile_bne_self '\n' p.data hp
    rw [parseGcsPath, hscheme, hdata]
    simp only [if_true]
    rw [hdrop5, hbucket, hempty]
    simp only [Bool.false_eq_true, if_false]
    rw [hdropb]
    simp [htp]
  · rw [parseGcsPath, hs]
    simp

/-- Claim C6 counterexample: the resolver does not normalize a trailing slash
on the prefix; `gs://bucket/sub/` and `gs://bucket/sub` parse to different
`GcsConfig` values (prefixes `"sub/"` and `"sub"`). -/
theorem parseGcsPath_trailing_slash_counterexample :
    parseGcsPath "gs://bucket/sub/" ≠ parseGcsPath "gs://bucket/sub" := by
  decide

/-- Claim C6 amended: `parseGcsPath` preserves the trailing slash (the two
locators parse to distinct configs), but the two resulting prefixes resolve
every request URL to the same object key, because the key-join step adds a
separator only when the prefix does not already end with one. -/
theorem resolveFilePath_trailing_slash_equiv (q url : String)
    (hq : q ≠ "") (h : endsWithSlash q = false) :
    resolveFilePath (q ++ "/") url = resolveFilePath q url := by
  have h1 : endsWithSlash (q ++ "/") = true := by
    rw [endsWithSlash, String.data_append]
    have h2 : ("/" : String).data = ['/'] := rfl
    rw [h2, List.getLast?_concat]
    rfl
  have hne : q ++ "/" ≠ "" := by
    intro hcon
    have hc := congrArg String.data hcon
    rw [String.data_append] at hc
    simp at hc
  simp only [resolveFilePath]
  rw [h1, h, if_pos hne, if_pos hq]
  simp [String.append_empty, String.append_assoc]

/-- Claim C3: for every configured key prefix without a trailing slash and
every request URL, the resolved object key substitutes `index.html` for the
root path, strips the leading character of any other path, and prepends the
prefix joined with exactly one `/` separator (no separator for the empty
prefix); in particular the root path resolves to the prefix joined with
`index.html`. -/
theorem resolveFilePath_spec (q url : String) (h : endsWithSlash q = false) :
    resolveFilePath q "/" = (if q = "" then "" else q ++ "/") ++ "index.html" ∧
    (url ≠ "/" →
      resolveFilePath q url = (if q = "" then "" else q ++ "/") ++ url.drop 1) := by
  constructor
  · by_cases hq : q = ""
    · simp [resolveFilePath, hq]
    · simp [resolveFilePath, hq, h, String.append_assoc]
  · intro hurl
    by_cases hq : q = ""
    · simp [resolveFilePath, hq, hurl]
    · simp [resolveFilePath, hq, hurl, h, String.append_assoc]

/-- Witness for C3 at the prefix `Build` and the URLs `/` and `/app.wasm`. -/
theorem resolveFilePath_spec_witness :
    endsWithSlash "Build" = false ∧
    resolveFilePath "Build" "/" = "Build/index.html" ∧
    resolveFilePath "Build" "/app.wasm" = "Build/app.wasm" := by
  have h := resolveFilePath_spec "Build" "/app.wasm" (by decide)
  refine ⟨by decide, ?_, ?_⟩
  · rw [h.1]
    decide
  · rw [h.2 (by decide)]
    decide

/-- Witness for the C6 amended theorem at prefix `sub` and URL `/a.txt`. -/
theorem resolveFilePath_trailing_slash_equiv_witness :
    "sub" ≠ "" ∧ endsWithSlash "sub" = false ∧
    resolveFilePath ("sub" ++ "/") "/a.txt" = resolveFilePath "sub" "/a.txt" :=
  ⟨by decide, by decide,
   resolveFilePath_trailing_slash_equiv "sub" "/a.txt" (by decide) (by decide)⟩

/-- Claim C1: once the object exists and its metadata arrives, the handler
answers a bare 304 (no body, no headers) exactly when the If-None-Match value
is present, non-empty and byte-for-byte equal to the object ETag; otherwise it
proceeds to full delivery (a read stream is requested and the status is not
304); and with no ETag in the metadata the 304 branch is never taken. -/
theorem conditional_304_spec (cfg : GcsConfig) (backend : Backend)
    (req : HttpRequest) (m : ObjectMetadata) (key : String)
    (hkey : key = resolveFilePath cfg.pfx req.url)
    (hex : backend.fileExists key = Except.ok true)
    (hmd : backend.getMetadata key = Except.ok m) :
    ((∃ v, req.ifNoneMatch = some v ∧ v ≠ "" ∧ m.etag = some v) →
        (handleRequest cfg backend req).1 = ⟨304, [], ResponseBody.empty⟩) ∧
    ((¬ ∃ v, req.ifNoneMatch = some v ∧ v ≠ "" ∧ m.etag = some v) →
        (handleRequest cfg backend req).1.status ≠ 304 ∧
        BackendOp.openReadStream key false ∈ (handleRequest cfg backend req).2) ∧
    (m.etag = none → (handleRequest cfg backend req).1.status ≠ 304) := by
  subst hkey
  refine ⟨?_, ?_, ?_⟩
  · intro hC
    have hc : condMatch req.ifNoneMatch m.etag = true := (condMatch_iff _ _).2 hC
    simp [handleRequest, hex, hmd, hc]
  · intro hC
    have hc : condMatch req.ifNoneMatch m.etag = false := by
      rcases Bool.eq_false_or_eq_true (condMatch req.ifNoneMatch m.etag) with h | h
      · exact absurd ((condMatch_iff _ _).1 h) hC
      · exact h
    cases hcs : backend.createReadStream (resolveFilePath cfg.pfx req.url) false with
    | error e => simp [handleRequest, hex, hmd, hc, hcs]
    | ok u => simp [handleRequest, hex, hmd, hc, hcs]
  · intro hE
    have hc : condMatch req.ifNoneMatch m.etag = false := by
      rw [hE]
      simp [condMatch, optTruthy]
    cases hcs : backend.createReadStream (resolveFilePath cfg.pfx req.url) false with
    | error e => simp [handleRequest, hex, hmd, hc, hcs]
    | ok u => simp [handleRequest, hex, hmd, hc, hcs]

/-- Witness for C1: with stored ETag `"abc"`, the validator `"abc"` yields the
bare 304 and the validator `"xyz"` does not. -/
theorem conditional_304_witness :
    (handleRequest ⟨"bucket", ""⟩ demoBackendFull ⟨"GET", "/", some "abc"⟩).1 =
      ⟨304, [], ResponseBody.empty⟩ ∧
    (handleRequest ⟨"bucket", ""⟩ demoBackendFull
        ⟨"GET", "/", some "xyz"⟩).1.status ≠ 304 := by
  constructor
  · exact (conditional_304_spec ⟨"bucket", ""⟩ demoBackendFull
      ⟨"GET", "/", some "abc"⟩ ⟨some "abc", some "text/html", some "gzip"⟩
      "index.html" (by decide) rfl rfl).1 ⟨"abc", rfl, by decide, rfl⟩
  · exact ((conditional_304_spec ⟨"bucket", ""⟩ demoBackendFull
      ⟨"GET", "/", some "xyz"⟩ ⟨some "abc", some "text/html", some "gzip"⟩
      "index.html" (by decide) rfl rfl).2.1 (by simp)).1

/-- Claim C10: when the conditional check short-circuits with a 304, exactly
the existence check and the metadata fetch were performed (no read stream is
opened) and the response carries no ETag, Content-Type, Content-Encoding or
Cache-Control header. -/
theorem not_modified_frame (cfg : GcsConfig) (backend : Backend)
    (req : HttpRequest) (m : ObjectMetadata) (key : String)
    (hkey : key = resolveFilePath cfg.pfx req.url)
    (hex : backend.fileExists key = Except.ok true)
    (hmd : backend.getMetadata key = Except.ok m)
    (hc : condMatch req.ifNoneMatch m.etag = true) :
    (handleRequest cfg backend req).2 =
      [BackendOp.checkExists key, BackendOp.fetchMetadata key] ∧
    (∀ k d, BackendOp.openReadStream k d ∉ (handleRequest cfg backend req).2) ∧
    (handleRequest cfg backend req).1.headers = [] ∧
    (∀ v, ("ETag", v) ∉ (handleRequest cfg backend req).1.headers ∧
      ("Content-Type", v) ∉ (handleRequest cfg backend req).1.headers ∧
      ("Content-Encoding", v) ∉ (handleRequest cfg backend req).1.headers ∧
      ("Cache-Control", v) ∉ (handleRequest cfg backend req).1.headers) := by
  subst hkey
  have hr : handleRequest cfg backend req =
      (⟨304, [], ResponseBody.empty⟩,
       [BackendOp.checkExists (resolveFilePath cfg.pfx req.url),
        BackendOp.fetchMetadata (resolveFilePath cfg.pfx req.url)]) := by
    simp [handleRequest, hex, hmd, hc]
  rw [hr]
  simp

/-- Witness for C10 at the matching validator `"abc"`. -/
theorem not_modified_frame_witness :
    (handleRequest ⟨"bucket", ""⟩ demoBackendFull ⟨"GET", "/", some "abc"⟩).2 =
      [BackendOp.checkExists "index.html", BackendOp.fetchMetadata "index.html"] ∧
    (handleRequest ⟨"bucket", ""⟩ demoBackendFull
        ⟨"GET", "/", some "abc"⟩).1.headers = [] := by
  have h := not_modified_frame ⟨"bucket", ""⟩ demoBackendFull
    ⟨"GET", "/", some "abc"⟩ ⟨some "abc", some "text/html", some "gzip"⟩
    "index.html" (by decide) rfl rfl (by decide)
  exact ⟨h.1, h.2.2.1⟩

/-- Claim C2: a key whose existence check returns `false` yields a 404 whose
body contains the resolved key, while an exception thrown by the existence
check, the metadata fetch, or the stream setup yields a 500, never a 404. -/
theorem backend_error_spec (cfg : GcsConfig) (backend : Backend)
    (req : HttpRequest) (m : ObjectMetadata) (key msg : String)
    (hkey : key = resolveFilePath cfg.pfx req.url) :
    (backend.fileExists key = Except.ok false →
        (handleRequest cfg backend req).1.status = 404 ∧
        ∃ pre post,
          (handleRequest cfg backend req).1.body =
            ResponseBody.text (pre ++ key ++ post)) ∧
    (backend.fileExists key = Except.error msg →
        (handleRequest cfg backend req).1.status = 500 ∧
        (handleRequest cfg backend req).1.status ≠ 404) ∧
    (backend.fileExists key = Except.ok true →
      backend.getMetadata key = Except.error msg →
        (handleRequest cfg backend req).1.status = 500 ∧
        (handleRequest cfg backend req).1.status ≠ 404) ∧
    (backend.fileExists key = Except.ok true →
      backend.getMetadata key = Except.ok m →
      condMatch req.ifNoneMatch m.etag = false →
      backend.createReadStream key false = Except.error msg →
        (handleRequest cfg backend req).1.status = 500 ∧
        (handleRequest cfg backend req).1.status ≠ 404) := by
  subst hkey
  refine ⟨?_, ?_, ?_, ?_⟩
  · intro hex
    refine ⟨by simp [handleRequest, hex], ?_⟩
    refine ⟨"\n          <h1>File Not Found</h1>\n          <p>File not found in GCS: ",
      "</p>\n        ", ?_⟩
    simp [handleRequest, hex, notFoundBody]
  · intro hex
    simp [handleRequest, hex]
  · intro hex hmd
    simp [handleRequest, hex, hmd]
  · intro hex hmd hc hcs
    simp [handleRequest, hex, hmd, hc, hcs]

/-- Witness for C2: a missing key gives 404 with the key in the body; a
throwing existence check, metadata fetch, or stream setup gives 500. -/
theorem backend_error_spec_witness :
    (handleRequest ⟨"bucket", ""⟩ demoBackendMissing
        ⟨"GET", "/missing.txt", none⟩).1.status = 404 ∧
    (∃ pre post,
      (handleRequest ⟨"bucket", ""⟩ demoBackendMissing
          ⟨"GET", "/missing.txt", none⟩).1.body =
        ResponseBody.text (pre ++ "missing.txt" ++ post)) ∧
    (handleRequest ⟨"bucket", ""⟩ demoBackendDown
        ⟨"GET", "/missing.txt", none⟩).1.status = 500 ∧
    (handleRequest ⟨"bucket", ""⟩ demoBackendMetaDown
        ⟨"GET", "/missing.txt", none⟩).1.status = 500 ∧
    (handleRequest ⟨"bucket", ""⟩ demoBackendStreamDown
        ⟨"GET", "/missing.txt", none⟩).1.status = 500 := by
  have h1 := backend_error_spec ⟨"bucket", ""⟩ demoBackendMissing
    ⟨"GET", "/missing.txt", none⟩ ⟨some "abc", none, none⟩
    "missing.txt" "network unreachable" (by decide)
  have h2 := backend_error_spec ⟨"bucket", ""⟩ demoBackendDown
    ⟨"GET", "/missing.txt", none⟩ ⟨some "abc", none, none⟩
    "missing.txt" "network unreachable" (by decide)
  have h3 := backend_error_spec ⟨"bucket", ""⟩ demoBackendMetaDown
    ⟨"GET", "/missing.txt", none⟩ ⟨some "abc", none, none⟩
    "missing.txt" "network unreachable" (by decide)
  have h4 := backend_error_spec ⟨"bucket", ""⟩ demoBackendStreamDown
    ⟨"GET", "/missing.txt", none⟩ ⟨some "abc", none, none⟩
    "missing.txt" "network unreachable" (by decide)
  exact ⟨(h1.1 rfl).1, (h1.1 rfl).2, (h2.2.1 rfl).1, (h3.2.2.1 rfl rfl).1,
    (h4.2.2.2 rfl rfl (by decide) rfl).1⟩

/-- Claim C4: on the full-delivery path the response is a 200 whose ETag,
Content-Type and Content-Encoding headers are set exactly when the respective
metadata field is present (assuming present fields are non-empty strings, as
GCS metadata values are), the stored encoding value is forwarded unchanged,
Cache-Control is always `no-cache`, and the object stream is requested with
`decompress: false`. -/
theorem full_delivery_headers (cfg : GcsConfig) (backend : Backend)
    (req : HttpRequest) (m : ObjectMetadata) (key : String)
    (hkey : key = resolveFilePath cfg.pfx req.url)
    (hex : backend.fileExists key = Except.ok true)
    (hmd : backend.getMetadata key = Except.ok m)
    (hc : condMatch req.ifNoneMatch m.etag = false)
    (hcs : backend.createReadStream key false = Except.ok ())
    (he : m.etag ≠ some "") (hct : m.contentType ≠ some "")
    (hce : m.contentEncoding ≠ some "") :
    (handleRequest cfg backend req).1.status = 200 ∧
    (handleRequest cfg backend req).1.headers =
      optHeader "ETag" m.etag ++ optHeader "Content-Type" m.contentType ++
      optHeader "Content-Encoding" m.contentEncoding ++
      [("Cache-Control", "no-cache")] ∧
    ((∃ v, ("ETag", v) ∈ (handleRequest cfg backend req).1.headers) ↔
        m.etag.isSome = true) ∧
    ((∃ v, ("Content-Type", v) ∈ (handleRequest cfg backend req).1.headers) ↔
        m.contentType.isSome = true) ∧
    ((∃ v, ("Content-Encoding", v) ∈ (handleRequest cfg backend req).1.headers) ↔
        m.contentEncoding.isSome = true) ∧
    (∀ v, ("Content-Encoding", v) ∈ (handleRequest cfg backend req).1.headers →
        m.contentEncoding = some v) ∧
    ("Cache-Control", "no-cache") ∈ (handleRequest cfg backend req).1.headers ∧
    (handleRequest cfg backend req).1.body =
      ResponseBody.objectStream key false := by
  subst hkey
  have hst : ∀ (n : String) (v : Option String),
      v ≠ some "" → setIfTruthy n v = optHeader n v := by
    intro n v hv
    cases v with
    | none => rfl
    | some s =>
        have hs : s ≠ "" := fun hcon => hv (by rw [hcon])
        simp [setIfTruthy, optHeader, hs]
  have hr : (handleRequest cfg backend req).1 =
      ⟨200,
       optHeader "ETag" m.etag ++ optHeader "Content-Type" m.contentType ++
       optHeader "Content-Encoding" m.contentEncoding ++
       [("Cache-Control", "no-cache")],
       ResponseBody.objectStream (resolveFilePath cfg.pfx req.url) false⟩ := by
    simp [handleRequest, hex, hmd, hc, hcs, hst "ETag" m.etag he,
      hst "Content-Type" m.contentType hct,
      hst "Content-Encoding" m.contentEncoding hce]
  rw [hr]
  refine ⟨rfl, rfl, ?_, ?_, ?_, ?_, ?_, rfl⟩ <;>
    rcases m with ⟨e, ct, ce⟩ <;>
      cases e <;> cases ct <;> cases ce <;>
        simp_all [optHeader]

/-- Witness for C4: stored ETag `"abc"`, request validator `"xyz"` — full
delivery with all three headers plus `Cache-Control: no-cache`, streaming the
object without decompression. -/
theorem full_delivery_headers_witness :
    condMatch (some "xyz") (some "abc") = false ∧
    (handleRequest ⟨"bucket", ""⟩ demoBackendFull
        ⟨"GET", "/", some "xyz"⟩).1.status = 200 ∧
    (handleRequest ⟨"bucket", ""⟩ demoBackendFull
        ⟨"GET", "/", some "xyz"⟩).1.headers =
      [("ETag", "abc"), ("Content-Type", "text/html"),
       ("Content-Encoding", "gzip"), ("Cache-Control", "no-cache")] ∧
    (handleRequest ⟨"bucket", ""⟩ demoBackendFull
        ⟨"GET", "/", some "xyz"⟩).1.body =
      ResponseBody.objectStream "index.html" false := by
  have h := full_delivery_headers ⟨"bucket", ""⟩ demoBackendFull
    ⟨"GET", "/", some "xyz"⟩ ⟨some "abc", some "text/html", some "gzip"⟩
    "index.html" (by decide) rfl rfl (by decide) rfl (by decide) (by decide)
    (by decide)
  refine ⟨by decide, h.1, ?_, h.2.2.2.2.2.2.2⟩
  rw [h.2.1]
  rfl

/-- Claim C9: `handleRequest` never inspects the request method, so for a
fixed URL and If-None-Match value the full response and backend-operation
trace are identical across all HTTP methods. -/
theorem method_independence (cfg : GcsConfig) (backend : Backend)
    (url : String) (inm : Option String) (m1 m2 : String) :
    handleRequest cfg backend ⟨m1, url, inm⟩ =
      handleRequest cfg backend ⟨m2, url, inm⟩ := rfl

/-- Witness for C5 at `gs://my-bucket/unity/build` and the non-locator
`./local/dir`. -/
theorem parseGcsPath_spec_witness :
    "my-bucket" ≠ "" ∧ '/' ∉ ("my-bucket" : String).data ∧
    '\n' ∉ ("unity/build" : String).data ∧
    hasGsScheme "./local/dir" = false ∧
    parseGcsPath ("gs://" ++ "my-bucket" ++ "/" ++ "unity/build")
      = some ⟨"my-bucket", "unity/build"⟩ ∧
    parseGcsPath "./local/dir" = none := by
  have h := parseGcsPath_spec "my-bucket" "unity/build" "./local/dir"
    (by decide) (by decide) (by decide) (by decide)
  exact ⟨by decide, by decide, by decide, by decide, h.1, h.2⟩

/-- Claim C7: the local-mode middleware classifies by the lowercased URL
extension: `.wasm` → `application/wasm`; `.js` → `application/javascript`;
`.data` and `.unityweb` → `application/octet-stream`; `.gz` → encoding `gzip`
and `.br` → encoding `br`, in both cases with a content type of
`application/wasm` when the URL contains `.wasm.`, `application/javascript`
when it contains `.js.`, and `application/octet-stream` when it contains
`.data.` or none of these. -/
theorem local_classification (url : String) :
    (strLower (extname url) = ".wasm" →
        localHeaders url = [("Content-Type", "application/wasm")]) ∧
    (strLower (extname url) = ".js" →
        localHeaders url = [("Content-Type", "application/javascript")]) ∧
    (strLower (extname url) = ".data" →
        localHeaders url = [("Content-Type", "application/octet-stream")]) ∧
    (strLower (extname url) = ".unityweb" →
        localHeaders url = [("Content-Type", "application/octet-stream")]) ∧
    (strLower (extname url) = ".gz" →
        localHeaders url =
          [("Content-Encoding", "gzip"),
           ("Content-Type",
             if strContains url ".wasm." = true then "application/wasm"
             else if strContains url ".js." = true then "application/javascript"
             else "application/octet-stream")]) ∧
    (strLower (extname url) = ".br" →
        localHeaders url =
          [("Content-Encoding", "br"),
           ("Content-Type",
             if strContains url ".wasm." = true then "application/wasm"
             else if strContains url ".js." = true then "application/javascript"
             else "application/octet-stream")]) := by
  have hg : getContentTypeForCompressedFile url =
      (if strContains url ".wasm." = true then "application/wasm"
       else if strContains url ".js." = true then "application/javascript"
       else "application/octet-stream") := by
    by_cases h1 : strContains url ".wasm." = true
    · simp [getContentTypeForCompressedFile, h1]
    · by_cases h2 : strContains url ".js." = true
      · simp [getContentTypeForCompressedFile, h1, h2]
      · by_cases h3 : strContains url ".data." = true
        · simp [getContentTypeForCompressedFile, h1, h2, h3]
        · simp [getContentTypeForCompressedFile, h1, h2, h3]
  refine ⟨?_, ?_, ?_, ?_, ?_, ?_⟩ <;> intro h <;> simp [localHeaders, h, hg]

/-- Witness for C7 at the three example files: `app.wasm` → wasm content
type, `app.data.gz` → gzip encoding with octet-stream content type,
`app.js.br` → br encoding with javascript content type. -/
theorem local_classification_witness :
    localHeaders "/app.wasm" = [("Content-Type", "application/wasm")] ∧
    localHeaders "/app.data.gz" =
      [("Content-Encoding", "gzip"),
       ("Content-Type", "application/octet-stream")] ∧
    localHeaders "/app.js.br" =
      [("Content-Encoding", "br"),
       ("Content-Type", "application/javascript")] := by
  refine ⟨(local_classification "/app.wasm").1 (by decide), ?_, ?_⟩
  · have h := (local_classification "/app.data.gz").2.2.2.2.1 (by decide)
    rw [h]
    decide
  · have h := (local_classification "/app.js.br").2.2.2.2.2 (by decide)
    rw [h]
    decide

end UnityHttpServer
